import Mathlib

/-!
Verification of the `sweetzinc/image-processing` repository.

Part 1 embeds `src/auto_tholding.py` (`analyze_grayscale_image`): a numpy
image is a flat list of samples tagged with a dtype; the histogram, the
cumulative sums, the per-candidate between-class variance and numpy's
`argmax` are translated line by line.  The one floating-point subtlety that
matters is modelled exactly: the source computes the NaN guard `mask` but
never applies it, so for a candidate split with a zero class weight the
division is `0/0`, which numpy evaluates to NaN, and `np.argmax` on an array
containing NaN returns the index of the *first* NaN.  Since a zero class
weight forces a zero numerator (all counts below / above the split vanish),
a zero divisor here is always the `0/0` case, so NaN-producing entries are
represented by `none` in `Option Rat` and all other arithmetic is exact
(the remaining values are small enough that float64 rounding never affects
the comparisons used in the concrete evaluations below).

Part 2 embeds `src/crop_extension.py` (`random_crop_containing_bbox`,
`crop_to_grid`, `crop_to_grid_with_offset`): a PIL image is a width, a
height and a pixel function; `Image.crop` materialises a box (pixels
outside the source read as 0, as PIL fills them), `Image.new` is a
zero-filled canvas and `paste` overwrites its top-left corner.  Python
integer floor division `//` is `Int.fdiv`, and `range n` for a possibly
negative `n` is `List.range n.toNat`.
-/

set_option maxRecDepth 16384

/-! ## Part 1: `src/auto_tholding.py` -/

/-- The numpy dtypes the model distinguishes: the source only tests
`image.dtype != np.uint8`. -/
inductive NpDtype
  | uint8
  | int32
  | float64
  deriving DecidableEq

/-- A numpy 2-D array of samples, flattened in row-major order.  Samples are
rationals so that non-integral values are expressible; the `uint8_range`
field records that a `uint8` array can only hold integral values in
`[0, 255]`. -/
structure NpImage where
  width : Nat
  height : Nat
  dtype : NpDtype
  data : List Rat
  size_eq : data.length = width * height
  uint8_range : dtype = NpDtype.uint8 →
    ∀ v ∈ data, v.den = 1 ∧ 0 ≤ v.num ∧ v.num ≤ 255

/-- `histogram[i] = np.sum(image == i)` for `i in range(256)`
(`src/auto_tholding.py` lines 20-22). -/
def histogram (img : NpImage) : List Nat :=
  (List.range 256).map (fun (i : Nat) => img.data.countP (fun v => decide (v = (i : Rat))))

/-- `total_pixels = image.size` (line 25). -/
def totalPixels (img : NpImage) : Nat :=
  img.data.length

/-- Running sums of a list with accumulator `acc`: `cumList l 0` is
numpy's `cumsum`. -/
def cumList : List Nat → Nat → List Nat
  | [], _ => []
  | x :: xs, acc => (acc + x) :: cumList xs (acc + x)

/-- `cumsum = histogram.cumsum()` (line 29). -/
def cumsum (img : NpImage) : List Nat :=
  cumList (histogram img) 0

/-- `cumsum_vals = (pixel_range * histogram).cumsum()` (lines 26, 30). -/
def cumsumVals (img : NpImage) : List Nat :=
  cumList (List.zipWith (fun i c => i * c) (List.range 256) (histogram img)) 0

/-- numpy float true-division where a zero divisor is the `0/0` case and
yields NaN, modelled as `none`.  (In the source, whenever the divisor
`w1[t]` or `w2[t]` is zero the numerator is also zero, so this is exact.) -/
def npDiv (a b : Rat) : Option Rat :=
  if b = 0 then none else some (a / b)

/-- `w1 = cumsum[:-1]` entrywise: class-A weight at split `t` (line 36). -/
def w1 (img : NpImage) (t : Nat) : Nat :=
  (cumsum img).getD t 0

/-- `w2 = total_pixels - w1` entrywise (line 37); `w1 ≤ total_pixels`
always holds, so natural subtraction is exact. -/
def w2 (img : NpImage) (t : Nat) : Nat :=
  totalPixels img - w1 img t

/-- `mu1 = cumsum_vals[:-1] / w1` entrywise (line 38). -/
def mu1 (img : NpImage) (t : Nat) : Option Rat :=
  npDiv ((cumsumVals img).getD t 0 : Nat) (w1 img t : Nat)

/-- `mu2 = (cumsum_vals[-1] - cumsum_vals[:-1]) / w2` entrywise (line 39). -/
def mu2 (img : NpImage) (t : Nat) : Option Rat :=
  npDiv (((cumsumVals img).getD 255 0 : Nat) - ((cumsumVals img).getD t 0 : Nat) : Rat)
    (w2 img t : Nat)

/-- `variance = w1 * w2 * (mu1 - mu2) ** 2` at split `t` (line 42), keeping
numpy's NaN propagation: an operand NaN makes the result NaN (`0 * NaN` is
NaN in IEEE floats). -/
def varianceAt (img : NpImage) (t : Nat) : Option Rat :=
  match mu1 img t, mu2 img t with
  | some a, some b => some ((w1 img t : Rat) * (w2 img t : Rat) * (a - b) ^ 2)
  | _, _ => none

/-- The 255-entry variance array over candidate splits `t in [0, 254]`. -/
def varianceList (img : NpImage) : List (Option Rat) :=
  (List.range 255).map (varianceAt img)

/-- `np.argmax` on a float array, `none` standing for NaN: numpy compares
with `!(x <= max)`, so the running maximum is replaced only by a strictly
greater value (first maximum wins) and the scan stops at the first NaN,
whose index is returned. -/
def npArgmaxAux : List (Option Rat) → Nat → Nat → Rat → Nat
  | [], _, best, _ => best
  | none :: _, i, _, _ => i
  | some v :: rest, i, best, bv =>
    if bv < v then npArgmaxAux rest (i + 1) i v else npArgmaxAux rest (i + 1) best bv

/-- `np.argmax` over the whole array (never called on an empty one). -/
def npArgmax : List (Option Rat) → Nat
  | [] => 0
  | none :: _ => 0
  | some v :: rest => npArgmaxAux rest 1 0 v

/-- `threshold = np.argmax(variance)` (line 45). -/
def threshold (img : NpImage) : Nat :=
  npArgmax (varianceList img)

/-- Errors of the thresholder; the source raises
`ValueError("Image must be uint8")`. -/
inductive ThreshError
  | invalidInput
  deriving DecidableEq

deriving instance DecidableEq for Except

/-- `analyze_grayscale_image` (`src/auto_tholding.py` lines 3-47): reject a
non-uint8 dtype, else return the histogram and the Otsu threshold. -/
def analyze_grayscale_image (img : NpImage) : Except ThreshError (List Nat × Nat) :=
  if img.dtype ≠ NpDtype.uint8 then Except.error ThreshError.invalidInput
  else Except.ok (histogram img, threshold img)

/-- A sample is representable as an 8-bit unsigned integer: integral and in
`[0, 255]`. -/
def reprUint8 (v : Rat) : Prop :=
  v.den = 1 ∧ 0 ≤ v.num ∧ v.num ≤ 255

instance (v : Rat) : Decidable (reprUint8 v) := by
  unfold reprUint8; infer_instance

/-- A 1×2 uint8 image with samples 1 and 2. -/
def img12 : NpImage where
  width := 2
  height := 1
  dtype := NpDtype.uint8
  data := [1, 2]
  size_eq := rfl
  uint8_range := by decide

/-- The spec's end-to-end example: a 10×10 uint8 image with 20 pixels of
intensity 10 and 80 pixels of intensity 200. -/
def img10x10 : NpImage where
  width := 10
  height := 10
  dtype := NpDtype.uint8
  data := List.replicate 20 (10 : Rat) ++ List.replicate 80 (200 : Rat)
  size_eq := rfl
  uint8_range := by decide

/-- A 1×1 image of dtype int32 whose single sample 5 is representable as
uint8. -/
def imgInt32 : NpImage where
  width := 1
  height := 1
  dtype := NpDtype.int32
  data := [5]
  size_eq := rfl
  uint8_range := by intro h; cases h

/-- A 1×1 uint8 image with the single sample 0. -/
def img1x1 : NpImage where
  width := 1
  height := 1
  dtype := NpDtype.uint8
  data := [0]
  size_eq := rfl
  uint8_range := by decide

/-! ### Lemmas for the histogram -/

/-- Sums over `List.range` coincide with `Finset.range` sums. -/
lemma list_range_map_sum (n : Nat) (f : Nat → Nat) :
    ((List.range n).map f).sum = ∑ i ∈ Finset.range n, f i := by
  induction n with
  | zero => simp
  | succ n ih =>
    rw [List.range_succ, List.map_append, List.sum_append, Finset.sum_range_succ, ih]
    simp

/-- Each sample that is a natural number below 256 is counted by exactly one
of the 256 histogram bins, so the bin counts sum to the sample count. -/
lemma sum_counts (l : List Rat) (h : ∀ v ∈ l, ∃ n : Nat, n < 256 ∧ v = (n : Rat)) :
    (∑ i ∈ Finset.range 256, l.countP (fun v => decide (v = (i : Rat)))) = l.length := by
  induction l with
  | nil => simp
  | cons x xs ih =>
    obtain ⟨n, hn, hx⟩ := h x (List.mem_cons_self x xs)
    have hxs : ∀ v ∈ xs, ∃ n : Nat, n < 256 ∧ v = (n : Rat) :=
      fun v hv => h v (List.mem_cons_of_mem _ hv)
    simp only [List.countP_cons]
    rw [Finset.sum_add_distrib, ih hxs]
    have hone : ∀ i ∈ Finset.range 256,
        (if (fun v => decide (v = (i : Rat))) x = true then (1 : Nat) else 0) =
          if n = i then 1 else 0 := by
      intro i _
      simp [hx, Rat.natCast_inj]
    rw [Finset.sum_congr rfl hone, Finset.sum_ite_eq, if_pos (Finset.mem_range.mpr hn)]
    simp [List.length_cons]

/-- Samples of a uint8 image are natural numbers below 256. -/
lemma uint8_samples_nat (img : NpImage) (hdt : img.dtype = NpDtype.uint8) :
    ∀ v ∈ img.data, ∃ n : Nat, n < 256 ∧ v = (n : Rat) := by
  intro v hv
  obtain ⟨hd1, hd2, hd3⟩ := img.uint8_range hdt v hv
  refine ⟨v.num.toNat, by omega, ?_⟩
  have h5 : ((v.num.toNat : Nat) : Int) = v.num := Int.toNat_of_nonneg hd2
  have h6 : ((v.num : Rat)) = v := (Rat.den_eq_one_iff v).mp hd1
  rw [← h6, ← h5]
  push_cast
  rfl

/-! ### Claims C1-C5 -/

/-- C1: the claim "the returned threshold maximizes the between-class
variance: no candidate split with both class weights non-zero yields a
strictly greater variance" fails on the code.  On the 1×2 uint8 image with
samples 1 and 2 the unused NaN mask lets `np.argmax` return the index of the
first NaN: the returned threshold is 0, whose class-A weight `cumsum[0]` is
zero and whose variance entry is NaN (`none`), while the valid candidate
split 1 has between-class variance 1 > 0. -/
theorem C1_threshold_not_optimal_eval :
    (analyze_grayscale_image img12).map Prod.snd = Except.ok 0 ∧
    w1 img12 0 = 0 ∧
    (varianceList img12).getD 0 (some 0) = none ∧
    w1 img12 1 = 1 ∧ w2 img12 1 = 1 ∧
    (varianceList img12).getD 1 none = some 1 := by
  refine ⟨by decide, by decide, by decide, by decide, by decide, ?_⟩
  have hcv : (cumsumVals img12).getD 1 0 = 1 := by decide
  have hcvN : (cumsumVals img12).getD 255 0 = 3 := by decide
  have hw1 : w1 img12 1 = 1 := by decide
  have hw2 : w2 img12 1 = 1 := by decide
  have hm1 : mu1 img12 1 = some 1 := by
    unfold mu1
    rw [hcv, hw1]
    norm_num [npDiv]
  have hm2 : mu2 img12 1 = some 2 := by
    unfold mu2
    rw [hcv, hcvN, hw2]
    norm_num [npDiv]
  have hidx : (varianceList img12).getD 1 none = varianceAt img12 1 := by
    rw [varianceList, List.getD_eq_getElem?_getD, List.getElem?_map,
      List.getElem?_range (by omega)]
    rfl
  rw [hidx]
  unfold varianceAt
  rw [hm1, hm2, hw1, hw2]
  norm_num

/-- C2: the claim "zero-weight candidates are skipped and the divisions are
guarded" fails on the code: the guard `mask` is computed but never used.  On
the 1×2 image [1, 2] the division at split 0 is performed with the
zero-weight divisor `w1 = cumsum[0] = 0` (NaN entry `none` in the variance
array), and that invalid candidate is selected as the threshold even though
split 1 is a valid candidate (both weights are 1). -/
theorem C2_unguarded_division_eval :
    mu1 img12 0 = none ∧
    (varianceList img12).getD 0 (some 0) = none ∧
    (analyze_grayscale_image img12).map Prod.snd = Except.ok 0 ∧
    w1 img12 0 = 0 ∧
    w1 img12 1 ≠ 0 ∧ w2 img12 1 ≠ 0 := by
  decide

/-- C3: on the spec's 10×10 example image (20 pixels of intensity 10, 80 of
intensity 200) the histogram is as claimed (entry 10 is 20, entry 200 is 80,
sum 100 over 256 entries, so all others are 0), but the returned threshold is
0, not the claimed 10: `variance[0..9]` are NaN because `cumsum[t] = 0` there,
and `np.argmax` returns the index of the first NaN. -/
theorem C3_example_eval :
    (analyze_grayscale_image img10x10).map (fun r =>
      (r.1.getD 10 0, r.1.getD 200 0, r.1.sum, r.1.length, r.2)) =
      Except.ok (20, 80, 100, 256, 0) := by
  decide

/-- C4: for every image accepted by `analyze_grayscale_image`, the returned
histogram has 256 entries, its entries sum to `width * height`, and entry
`i` counts the pixels whose sample equals `i`. -/
theorem C4_histogram_conservation (img : NpImage) (h : List Nat) (t : Nat)
    (hok : analyze_grayscale_image img = Except.ok (h, t)) :
    h.length = 256 ∧ h.sum = img.width * img.height ∧
    ∀ i, i < 256 → h.getD i 0 = img.data.countP (fun v => decide (v = (i : Rat))) := by
  have hdt : img.dtype = NpDtype.uint8 := by
    by_contra hd
    simp [analyze_grayscale_image, hd] at hok
  have hh : h = histogram img := by
    simp [analyze_grayscale_image, hdt] at hok
    exact hok.1.symm
  subst hh
  refine ⟨by rw [histogram, List.length_map, List.length_range], ?_, ?_⟩
  · rw [histogram, list_range_map_sum, sum_counts _ (uint8_samples_nat img hdt), img.size_eq]
  · intro i hi
    rw [histogram, List.getD_eq_getElem?_getD, List.getElem?_map, List.getElem?_range hi]
    rfl

/-- C4 witness: the conservation statement instantiated on the concrete 1×1
uint8 image with sample 0. -/
theorem C4_histogram_conservation_witness :
    analyze_grayscale_image img1x1 = Except.ok (histogram img1x1, threshold img1x1) ∧
    ((histogram img1x1).length = 256 ∧
      (histogram img1x1).sum = img1x1.width * img1x1.height ∧
      ∀ i, i < 256 → (histogram img1x1).getD i 0 =
        img1x1.data.countP (fun v => decide (v = (i : Rat)))) :=
  ⟨by rfl, C4_histogram_conservation img1x1 (histogram img1x1) (threshold img1x1) (by rfl)⟩

/-- C5 counterexample: a 1×1 image of dtype int32 whose single sample 5 is
representable as an 8-bit unsigned integer is nevertheless rejected — the
code checks the numpy dtype, not representability, so "accepted iff samples
are representable as uint8" is false. -/
theorem C5_dtype_counterexample :
    imgInt32.data.all (fun v => decide (reprUint8 v)) = true ∧
    analyze_grayscale_image imgInt32 = Except.error ThreshError.invalidInput :=
  ⟨rfl, rfl⟩

/-- C5 amended: `analyze_grayscale_image` fails with the invalid-input error
iff the image dtype is not uint8; a uint8 image is always accepted and its
samples are in particular representable as 8-bit unsigned integers. -/
theorem C5_dtype_gate (img : NpImage) :
    (analyze_grayscale_image img = Except.error ThreshError.invalidInput ↔
      img.dtype ≠ NpDtype.uint8) ∧
    (img.dtype = NpDtype.uint8 →
      analyze_grayscale_image img = Except.ok (histogram img, threshold img) ∧
      ∀ v ∈ img.data, reprUint8 v) := by
  refine ⟨⟨fun he hd => ?_, fun hd => ?_⟩, fun hd => ?_⟩
  · simp [analyze_grayscale_image, hd] at he
  · simp [analyze_grayscale_image, hd]
  · exact ⟨by simp [analyze_grayscale_image, hd], fun v hv => img.uint8_range hd v hv⟩

/-- C5 witness: the amended statement instantiated on the concrete 1×1 uint8
image. -/
theorem C5_dtype_gate_witness :
    (analyze_grayscale_image img1x1 = Except.error ThreshError.invalidInput ↔
      img1x1.dtype ≠ NpDtype.uint8) ∧
    (img1x1.dtype = NpDtype.uint8 →
      analyze_grayscale_image img1x1 = Except.ok (histogram img1x1, threshold img1x1) ∧
      ∀ v ∈ img1x1.data, reprUint8 v) :=
  C5_dtype_gate img1x1

/-! ## Part 2: `src/crop_extension.py` -/

/-- A PIL image: a width and a height in pixels, and an intensity at each
coordinate.  Only `getPixel` reads are observable; `pixel` itself is the
stored buffer. -/
structure PILImage where
  width : Nat
  height : Nat
  pixel : Int → Int → Nat

/-- An observable pixel read: outside the image bounds the value is the
zero/black background that PIL uses for uncovered areas. -/
def getPixel (img : PILImage) (a b : Int) : Nat :=
  if 0 ≤ a ∧ a < (img.width : Int) ∧ 0 ≤ b ∧ b < (img.height : Int) then img.pixel a b else 0

/-- `image.crop((l, u, r, lo))`: a new image of size `(r - l, lo - u)` whose
pixel `(a, b)` holds the source read at `(l + a, u + b)`. -/
def cropImg (img : PILImage) (l u r lo : Int) : PILImage where
  width := (r - l).toNat
  height := (lo - u).toNat
  pixel := fun a b => getPixel img (l + a) (u + b)

/-- The validation failures of `random_crop_containing_bbox`
(`src/crop_extension.py` lines 21-52); the source raises `ValueError` with a
distinct message at each site, here distinguished as constructors. -/
inductive CropError
  | invalidParameter
  | outOfBounds
  | cropTooSmall
  | noValidRegion
  deriving DecidableEq

/-- `random_crop_containing_bbox(image, bbox=(x, y, w, h), crop_size=(cw, ch))`
(`src/crop_extension.py` lines 6-61).  The two values the seeded
`random.randint` calls would produce are passed in as `rx` and `ry`; the
source consults them only when the corresponding interval is non-degenerate. -/
def random_crop_containing_bbox (img : PILImage) (x y w h cw ch rx ry : Int) :
    Except CropError (PILImage × Int × Int) :=
  if cw ≤ 0 ∨ ch ≤ 0 then Except.error CropError.invalidParameter
  else if x < 0 ∨ y < 0 ∨ x + w > (img.width : Int) ∨ y + h > (img.height : Int) then
    Except.error CropError.outOfBounds
  else if w > cw ∨ h > ch then Except.error CropError.cropTooSmall
  else
    let minX := max 0 (x + w - cw)
    let maxX := min ((img.width : Int) - cw) x
    let minY := max 0 (y + h - ch)
    let maxY := min ((img.height : Int) - ch) y
    if minX > maxX ∨ minY > maxY then Except.error CropError.noValidRegion
    else
      let cx := if minX < maxX then rx else minX
      let cy := if minY < maxY then ry else minY
      Except.ok (cropImg img cx cy (cx + cw) (cy + ch), cx, cy)

/-- `Image.new("RGB", (tw, th))` — a black canvas — with `crop` pasted at
`(0, 0)` (`src/crop_extension.py` lines 92-93). -/
def padTile (crop : PILImage) (tw th : Nat) : PILImage where
  width := tw
  height := th
  pixel := fun a b =>
    if 0 ≤ a ∧ a < (crop.width : Int) ∧ 0 ≤ b ∧ b < (crop.height : Int) then getPixel crop a b
    else 0

/-- The body of `crop_to_grid`'s loop for grid cell `(i, j)`
(`src/crop_extension.py` lines 82-96): crop the clamped cell, pad it to
`(tw, th)` when the clamped region is smaller. -/
def gridTile (img : PILImage) (tw th i j : Nat) : PILImage :=
  let left := i * tw
  let upper := j * th
  let right := min (left + tw) img.width
  let lower := min (upper + th) img.height
  let c := cropImg img left upper right lower
  if c.width = tw ∧ c.height = th then c else padTile c tw th

/-- `crop_to_grid(image, tile_size=(tw, th))` (`src/crop_extension.py`
lines 64-98): `ceil(width / tw) * ceil(height / th)` cells, outer loop over
columns `i`, inner loop over rows `j`. -/
def crop_to_grid (img : PILImage) (tw th : Nat) : List PILImage :=
  ((List.range ((img.width + tw - 1) / tw)).map (fun i =>
    (List.range ((img.height + th - 1) / th)).map (fun j => gridTile img tw th i j))).flatten

/-- The body of `crop_to_grid_with_offset`'s loop for cell `(i, j)`
(`src/crop_extension.py` lines 117-126): the offset does not appear in the
crop origin. -/
def offsetTile (img : PILImage) (tw th : Int) (i j : Nat) : PILImage :=
  cropImg img ((i : Int) * tw) ((j : Int) * th)
    (min ((i : Int) * tw + tw) (img.width : Int)) (min ((j : Int) * th + th) (img.height : Int))

/-- `crop_to_grid_with_offset(image, tile_size=(tw, th), offset=(ox, oy))`
(`src/crop_extension.py` lines 101-127).  Python's `//` on possibly negative
numerators is floor division (`Int.fdiv`) and `range n` of a negative `n` is
empty (`toNat`). -/
def crop_to_grid_with_offset (img : PILImage) (tw th ox oy : Int) : List PILImage :=
  ((List.range ((((img.width : Int) - ox - 1).fdiv tw).toNat)).map (fun i =>
    (List.range ((((img.height : Int) - oy - 1).fdiv th).toNat)).map (fun j =>
      offsetTile img tw th i j))).flatten

/-! ### Lemmas for the tiling operations -/

/-- Length of a doubly nested loop materialised as a flattened map of maps. -/
lemma length_grid {α : Type} (nX nY : Nat) (f : Nat → Nat → α) :
    (((List.range nX).map (fun i => (List.range nY).map (f i))).flatten).length = nX * nY := by
  rw [List.length_flatten, List.map_map]
  have hconst : (List.length ∘ fun i => (List.range nY).map (f i)) = fun (_ : Nat) => nY := by
    funext i
    simp
  rw [hconst, List.map_const', List.sum_const_nat, List.length_range]

/-- `crop_to_grid` always emits one tile per grid cell. -/
lemma crop_to_grid_length (img : PILImage) (tw th : Nat) :
    (crop_to_grid img tw th).length =
      ((img.width + tw - 1) / tw) * ((img.height + th - 1) / th) :=
  length_grid _ _ _

/-- `crop_to_grid_with_offset` emits one tile per cell of its clamped count. -/
lemma crop_to_grid_with_offset_length (img : PILImage) (tw th ox oy : Int) :
    (crop_to_grid_with_offset img tw th ox oy).length =
      (((img.width : Int) - ox - 1).fdiv tw).toNat *
        (((img.height : Int) - oy - 1).fdiv th).toNat :=
  length_grid _ _ _

/-- A column index below the ceiling-division count starts strictly inside
the image. -/
lemma lt_of_lt_ceilDiv {i n t : Nat} (ht : 0 < t) (hi : i < (n + t - 1) / t) : i * t < n := by
  have h1 : (i + 1) * t ≤ ((n + t - 1) / t) * t := Nat.mul_le_mul_right t hi
  have h2 : ((n + t - 1) / t) * t ≤ n + t - 1 := Nat.div_mul_le_self _ _
  have h4 : (i + 1) * t ≤ n + t - 1 := le_trans h1 h2
  have h3 : (i + 1) * t = i * t + t := by ring
  omega

/-- A 100×100 image used to instantiate the crop theorems. -/
def imgP100 : PILImage where
  width := 100
  height := 100
  pixel := fun _ _ => 0

/-- A 10×10 image used to instantiate the crop theorems. -/
def imgP10 : PILImage where
  width := 10
  height := 10
  pixel := fun _ _ => 0

/-- A 2×2 image used for the error-precedence counterexample. -/
def imgP2 : PILImage where
  width := 2
  height := 2
  pixel := fun _ _ => 0

/-! ### Claims C6-C7 -/

/-- C6: whenever validation passes, a valid region exists, and the random
draws respect their `randint` bounds, `random_crop_containing_bbox` returns a
crop of exactly the requested size whose offset lies in
`[minX, maxX] × [minY, maxY]`, the crop rectangle contains the bounding box
and stays inside the image, and a degenerate interval forces the offset to
its single point `minX` (resp. `minY`). -/
theorem C6_bbox_containment (img : PILImage) (x y w h cw ch rx ry : Int)
    (hcw : 0 < cw) (hch : 0 < ch)
    (hx : 0 ≤ x) (hy : 0 ≤ y)
    (hxw : x + w ≤ (img.width : Int)) (hyh : y + h ≤ (img.height : Int))
    (hwc : w ≤ cw) (hhc : h ≤ ch)
    (hvx : max 0 (x + w - cw) ≤ min ((img.width : Int) - cw) x)
    (hvy : max 0 (y + h - ch) ≤ min ((img.height : Int) - ch) y)
    (hrx1 : max 0 (x + w - cw) ≤ rx) (hrx2 : rx ≤ min ((img.width : Int) - cw) x)
    (hry1 : max 0 (y + h - ch) ≤ ry) (hry2 : ry ≤ min ((img.height : Int) - ch) y) :
    ∃ c px py, random_crop_containing_bbox img x y w h cw ch rx ry = Except.ok (c, px, py) ∧
      (c.width : Int) = cw ∧ (c.height : Int) = ch ∧
      max 0 (x + w - cw) ≤ px ∧ px ≤ min ((img.width : Int) - cw) x ∧
      max 0 (y + h - ch) ≤ py ∧ py ≤ min ((img.height : Int) - ch) y ∧
      px ≤ x ∧ x + w ≤ px + cw ∧ py ≤ y ∧ y + h ≤ py + ch ∧
      0 ≤ px ∧ px + cw ≤ (img.width : Int) ∧ 0 ≤ py ∧ py + ch ≤ (img.height : Int) ∧
      (max 0 (x + w - cw) = min ((img.width : Int) - cw) x → px = max 0 (x + w - cw)) ∧
      (max 0 (y + h - ch) = min ((img.height : Int) - ch) y → py = max 0 (y + h - ch)) := by
  set minX := max 0 (x + w - cw) with hminX
  set maxX := min ((img.width : Int) - cw) x with hmaxX
  set minY := max 0 (y + h - ch) with hminY
  set maxY := min ((img.height : Int) - ch) y with hmaxY
  set px := if minX < maxX then rx else minX with hpx
  set py := if minY < maxY then ry else minY with hpy
  have hpx1 : minX ≤ px := by rw [hpx]; split <;> omega
  have hpx2 : px ≤ maxX := by rw [hpx]; split <;> omega
  have hpy1 : minY ≤ py := by rw [hpy]; split <;> omega
  have hpy2 : py ≤ maxY := by rw [hpy]; split <;> omega
  refine ⟨cropImg img px py (px + cw) (py + ch), px, py, ?_, ?_, ?_, hpx1, hpx2, hpy1, hpy2,
    ?_, ?_, ?_, ?_, ?_, ?_, ?_, ?_, ?_, ?_⟩
  · rw [random_crop_containing_bbox]
    rw [if_neg (by omega), if_neg (by omega), if_neg (by omega)]
    simp only [← hminX, ← hmaxX, ← hminY, ← hmaxY]
    rw [if_neg (by omega)]
  · simp only [cropImg]
    omega
  · simp only [cropImg]
    omega
  · omega
  · omega
  · omega
  · omega
  · omega
  · omega
  · omega
  · omega
  · intro hdeg
    rw [hpx, if_neg (by omega)]
  · intro hdeg
    rw [hpy, if_neg (by omega)]

/-- C6 witness: the containment statement instantiated on a 100×100 image,
bounding box (10, 10, 20, 20), crop size (50, 50) and random draws (5, 5). -/
theorem C6_bbox_containment_witness :
    ((0 : Int) < 50 ∧ (0 : Int) < 50 ∧ (0 : Int) ≤ 10 ∧ (0 : Int) ≤ 10 ∧
      (10 + 20 : Int) ≤ (imgP100.width : Int) ∧ (10 + 20 : Int) ≤ (imgP100.height : Int) ∧
      (20 : Int) ≤ 50 ∧ (20 : Int) ≤ 50 ∧
      max 0 (10 + 20 - 50 : Int) ≤ min ((imgP100.width : Int) - 50) 10 ∧
      max 0 (10 + 20 - 50 : Int) ≤ min ((imgP100.height : Int) - 50) 10 ∧
      max 0 (10 + 20 - 50 : Int) ≤ (5 : Int) ∧ (5 : Int) ≤ min ((imgP100.width : Int) - 50) 10 ∧
      max 0 (10 + 20 - 50 : Int) ≤ (5 : Int) ∧ (5 : Int) ≤ min ((imgP100.height : Int) - 50) 10) ∧
    (∃ c px py,
      random_crop_containing_bbox imgP100 10 10 20 20 50 50 5 5 = Except.ok (c, px, py) ∧
      (c.width : Int) = 50 ∧ (c.height : Int) = 50 ∧
      max 0 (10 + 20 - 50 : Int) ≤ px ∧ px ≤ min ((imgP100.width : Int) - 50) 10 ∧
      max 0 (10 + 20 - 50 : Int) ≤ py ∧ py ≤ min ((imgP100.height : Int) - 50) 10 ∧
      px ≤ 10 ∧ (10 + 20 : Int) ≤ px + 50 ∧ py ≤ 10 ∧ (10 + 20 : Int) ≤ py + 50 ∧
      0 ≤ px ∧ px + 50 ≤ (imgP100.width : Int) ∧ 0 ≤ py ∧ py + 50 ≤ (imgP100.height : Int) ∧
      (max 0 (10 + 20 - 50 : Int) = min ((imgP100.width : Int) - 50) 10 →
        px = max 0 (10 + 20 - 50 : Int)) ∧
      (max 0 (10 + 20 - 50 : Int) = min ((imgP100.height : Int) - 50) 10 →
        py = max 0 (10 + 20 - 50 : Int))) :=
  ⟨by decide,
    C6_bbox_containment imgP100 10 10 20 20 50 50 5 5 (by decide) (by decide) (by decide)
      (by decide) (by decide) (by decide) (by decide) (by decide) (by decide) (by decide)
      (by decide) (by decide) (by decide) (by decide)⟩

/-- C7 counterexample: for a 2×2 image, bounding box (0, 0, 5, 5) and crop
size (3, 3) the bounding box is wider than the crop (5 > 3), yet the call
fails with the out-of-bounds error, not the crop-too-small error, because
the bounds check runs first. -/
theorem C7_error_precedence_counterexample :
    (3 : Int) < 5 ∧
    random_crop_containing_bbox imgP2 0 0 5 5 3 3 0 0 = Except.error CropError.outOfBounds ∧
    CropError.outOfBounds ≠ CropError.cropTooSmall :=
  ⟨by decide, rfl, by decide⟩

/-- C7 amended: when the crop size is positive and the bounding box lies
within the image, a bounding box wider or taller than the crop makes
`random_crop_containing_bbox` fail with the crop-too-small error (and an
error return carries no crop result). -/
theorem C7_too_small_amended (img : PILImage) (x y w h cw ch rx ry : Int)
    (hcw : 0 < cw) (hch : 0 < ch)
    (hx : 0 ≤ x) (hy : 0 ≤ y)
    (hxw : x + w ≤ (img.width : Int)) (hyh : y + h ≤ (img.height : Int))
    (hbig : cw < w ∨ ch < h) :
    random_crop_containing_bbox img x y w h cw ch rx ry =
      Except.error CropError.cropTooSmall := by
  rw [random_crop_containing_bbox]
  rw [if_neg (by omega), if_neg (by omega), if_pos (by omega)]

/-- C7 witness: the amended statement instantiated on a 10×10 image,
bounding box (0, 0, 5, 5) and crop size (4, 9). -/
theorem C7_too_small_amended_witness :
    ((0 : Int) < 4 ∧ (0 : Int) < 9 ∧ (0 : Int) ≤ 0 ∧ (0 : Int) ≤ 0 ∧
      (0 + 5 : Int) ≤ (imgP10.width : Int) ∧ (0 + 5 : Int) ≤ (imgP10.height : Int) ∧
      ((4 : Int) < 5 ∨ (9 : Int) < 5)) ∧
    random_crop_containing_bbox imgP10 0 0 5 5 4 9 0 0 =
      Except.error CropError.cropTooSmall :=
  ⟨by decide,
    C7_too_small_amended imgP10 0 0 5 5 4 9 0 0 (by decide) (by decide) (by decide) (by decide)
      (by decide) (by decide) (by decide)⟩

/-! ### Claim C8 -/

/-- Shape and pixel content of one grid cell of `crop_to_grid`: the cell is
exactly `(tw, th)`; inside the image it shows the image, and the padded
remainder is the zero background. -/
lemma gridTile_spec (img : PILImage) (tw th i j : Nat) (htw : 0 < tw) (hth : 0 < th)
    (hi : i * tw < img.width) (hj : j * th < img.height) :
    (gridTile img tw th i j).width = tw ∧ (gridTile img tw th i j).height = th ∧
    ∀ a b : Int, 0 ≤ a → a < (tw : Int) → 0 ≤ b → b < (th : Int) →
      getPixel (gridTile img tw th i j) a b =
        if ((i * tw : Nat) : Int) + a < (img.width : Int) ∧
            ((j * th : Nat) : Int) + b < (img.height : Int) then
          img.pixel (((i * tw : Nat) : Int) + a) (((j * th : Nat) : Int) + b)
        else 0 := by
  refine ⟨?_, ?_, ?_⟩
  · simp only [gridTile]
    split
    · next hc => exact hc.1
    · simp [padTile]
  · simp only [gridTile]
    split
    · next hc => exact hc.2
    · simp [padTile]
  · intro a b ha ha2 hb hb2
    simp only [gridTile]
    split
    · next hc =>
      simp only [cropImg] at hc
      simp only [getPixel, cropImg]
      split_ifs <;> first | rfl | omega
    · next hc =>
      simp only [getPixel, padTile, cropImg]
      split_ifs <;> first | rfl | omega

/-- C8: `crop_to_grid` emits exactly `ceil(width / tw) * ceil(height / th)`
tiles; every tile is exactly `(tw, th)`, and each tile's pixels agree with
the image at the tile's grid origin and are the zero background over the
padded remainder (edge tiles are a black canvas with the extracted region
pasted at the top-left corner). -/
theorem C8_grid_coverage (img : PILImage) (tw th : Nat) (htw : 0 < tw) (hth : 0 < th) :
    (crop_to_grid img tw th).length =
      ((img.width + tw - 1) / tw) * ((img.height + th - 1) / th) ∧
    ∀ tile ∈ crop_to_grid img tw th,
      tile.width = tw ∧ tile.height = th ∧
      ∃ i j, i < (img.width + tw - 1) / tw ∧ j < (img.height + th - 1) / th ∧
        ∀ a b : Int, 0 ≤ a → a < (tw : Int) → 0 ≤ b → b < (th : Int) →
          getPixel tile a b =
            if ((i * tw : Nat) : Int) + a < (img.width : Int) ∧
                ((j * th : Nat) : Int) + b < (img.height : Int) then
              img.pixel (((i * tw : Nat) : Int) + a) (((j * th : Nat) : Int) + b)
            else 0 := by
  refine ⟨crop_to_grid_length img tw th, ?_⟩
  intro tile htile
  rw [crop_to_grid] at htile
  simp only [List.mem_flatten, List.mem_map, List.mem_range] at htile
  obtain ⟨l, ⟨i, hi, hl⟩, htile⟩ := htile
  subst hl
  simp only [List.mem_map, List.mem_range] at htile
  obtain ⟨j, hj, hjt⟩ := htile
  subst hjt
  obtain ⟨hwid, hhei, hpix⟩ :=
    gridTile_spec img tw th i j htw hth (lt_of_lt_ceilDiv htw hi) (lt_of_lt_ceilDiv hth hj)
  exact ⟨hwid, hhei, i, j, hi, hj, hpix⟩

/-- A 600×400 image, the spec's non-divisible tiling example. -/
def imgP600 : PILImage where
  width := 600
  height := 400
  pixel := fun _ _ => 0

/-- C8 witness: the grid statement instantiated on a 600×400 image with
tile size (512, 512), which yields 2×1 tiles. -/
theorem C8_grid_coverage_witness :
    (0 < 512 ∧ 0 < 512) ∧
    ((crop_to_grid imgP600 512 512).length =
      ((imgP600.width + 512 - 1) / 512) * ((imgP600.height + 512 - 1) / 512) ∧
    ∀ tile ∈ crop_to_grid imgP600 512 512,
      tile.width = 512 ∧ tile.height = 512 ∧
      ∃ i j, i < (imgP600.width + 512 - 1) / 512 ∧ j < (imgP600.height + 512 - 1) / 512 ∧
        ∀ a b : Int, 0 ≤ a → a < (512 : Int) → 0 ≤ b → b < (512 : Int) →
          getPixel tile a b =
            if ((i * 512 : Nat) : Int) + a < (imgP600.width : Int) ∧
                ((j * 512 : Nat) : Int) + b < (imgP600.height : Int) then
              imgP600.pixel (((i * 512 : Nat) : Int) + a) (((j * 512 : Nat) : Int) + b)
            else 0) :=
  ⟨⟨by decide, by decide⟩, C8_grid_coverage imgP600 512 512 (by decide) (by decide)⟩

/-! ### Claims C9-C10 -/

/-- A 1×2 image for the offset tile-count counterexample. -/
def imgP1x2 : PILImage where
  width := 1
  height := 2
  pixel := fun _ _ => 0

/-- A 1024×1024 image, the spec's offset tiling example. -/
def imgP1024 : PILImage where
  width := 1024
  height := 1024
  pixel := fun _ _ => 0

/-- A 4×4 image for the zero-offset comparison. -/
def imgP4 : PILImage where
  width := 4
  height := 4
  pixel := fun _ _ => 0

/-- C9 counterexample: for a 1×2 image, tile size (1, 1) and offset (1, 0),
the claimed tile count floor((1-1-1)/1) * floor((2-0-1)/1) is (-1) * 1 = -1,
while the code emits 0 tiles (Python's `range` of a negative count is
empty), so the count formula of the claim fails as stated. -/
theorem C9_negative_count_counterexample :
    (crop_to_grid_with_offset imgP1x2 1 1 1 0).length = 0 ∧
    ((imgP1x2.width : Int) - 1 - 1).fdiv 1 = -1 ∧
    ((imgP1x2.height : Int) - 0 - 1).fdiv 1 = 1 ∧
    ((imgP1x2.width : Int) - 1 - 1).fdiv 1 * (((imgP1x2.height : Int) - 0 - 1).fdiv 1) = -1 ∧
    ((0 : Int) ≠ -1) := by
  refine ⟨rfl, by decide, by decide, by decide, by decide⟩

/-- C9 amended: for positive tile dimensions the emitted tile count is the
number of grid cells with the two floor quotients clamped at zero,
`toNat(floor((width - ox - 1) / tw)) * toNat(floor((height - oy - 1) / th))`,
and every emitted tile is extracted from origin `(i*tw, j*th)` — the offset
affects only how many tiles are produced, never where they are taken from. -/
theorem C9_offset_tiling_amended (img : PILImage) (tw th ox oy : Int)
    (htw : 0 < tw) (hth : 0 < th) :
    (crop_to_grid_with_offset img tw th ox oy).length =
      (((img.width : Int) - ox - 1).fdiv tw).toNat *
        (((img.height : Int) - oy - 1).fdiv th).toNat ∧
    ∀ tile ∈ crop_to_grid_with_offset img tw th ox oy,
      ∃ i j, i < (((img.width : Int) - ox - 1).fdiv tw).toNat ∧
        j < (((img.height : Int) - oy - 1).fdiv th).toNat ∧
        tile = offsetTile img tw th i j := by
  refine ⟨crop_to_grid_with_offset_length img tw th ox oy, ?_⟩
  intro tile htile
  rw [crop_to_grid_with_offset] at htile
  simp only [List.mem_flatten, List.mem_map, List.mem_range] at htile
  obtain ⟨l, ⟨i, hi, hl⟩, htile⟩ := htile
  subst hl
  simp only [List.mem_map, List.mem_range] at htile
  obtain ⟨j, hj, hjt⟩ := htile
  exact ⟨i, j, hi, hj, hjt.symm⟩

/-- C9 witness: on the 1024×1024 image with tile size (512, 512) and offset
(256, 256) exactly one tile is emitted. -/
theorem C9_offset_tiling_amended_witness :
    ((0 : Int) < 512 ∧ (0 : Int) < 512) ∧
    (crop_to_grid_with_offset imgP1024 512 512 256 256).length = 1 :=
  ⟨⟨by decide, by decide⟩, by
    rw [(C9_offset_tiling_amended imgP1024 512 512 256 256 (by decide) (by decide)).1]
    decide⟩

/-- Exact division makes the ceiling division of `crop_to_grid` exact. -/
lemma ceil_div_of_dvd (n t : Nat) (ht : 0 < t) (hd : t ∣ n) : (n + t - 1) / t = n / t := by
  obtain ⟨k, rfl⟩ := hd
  have e : k * t = t * k := Nat.mul_comm k t
  have h1 : t * k + t - 1 = (t - 1) + k * t := by omega
  rw [h1, Nat.add_mul_div_right _ _ ht, Nat.div_eq_of_lt (by omega)]
  rw [Nat.mul_div_cancel_left _ ht]
  have h2 : t * k / t = k := Nat.mul_div_cancel_left _ ht
  omega

/-- For an exactly divisible positive extent, `floor((n - 0 - 1) / t)`
clamped to a natural number is one less than the exact quotient. -/
lemma fdiv_pred_of_dvd (n t : Nat) (ht : 0 < t) (hn : 0 < n) (hd : t ∣ n) :
    (((n : Int) - 0 - 1).fdiv (t : Int)).toNat = n / t - 1 := by
  have h1 : (n : Int) - 0 - 1 = ((n - 1 : Nat) : Int) := by omega
  rw [h1, ← Int.ofNat_fdiv, Int.toNat_ofNat]
  obtain ⟨k, rfl⟩ := hd
  have hk : 0 < k := by
    rcases Nat.eq_zero_or_pos k with h | h
    · subst h
      simp at hn
    · exact h
  have e : (k - 1) * t + t = k * t := by
    have hk1 : k - 1 + 1 = k := by omega
    calc (k - 1) * t + t = (k - 1 + 1) * t := by ring
      _ = k * t := by rw [hk1]
  have e2 : k * t = t * k := Nat.mul_comm k t
  have h2 : t * k - 1 = (t - 1) + (k - 1) * t := by omega
  rw [h2, Nat.add_mul_div_right _ _ ht, Nat.div_eq_of_lt (by omega)]
  have h3 : t * k / t = k := Nat.mul_div_cancel_left _ ht
  omega

/-- C10: on an exactly divisible image with positive dimensions,
`crop_to_grid_with_offset` at offset (0, 0) emits one fewer tile column and
one fewer tile row than `crop_to_grid`: `(w/tw - 1) * (h/th - 1)` tiles
against `(w/tw) * (h/th)`, so zero-offset tiling never reproduces plain grid
tiling there. -/
theorem C10_zero_offset_loses_row_col (img : PILImage) (tw th : Nat)
    (htw : 0 < tw) (hth : 0 < th) (hw : 0 < img.width) (hh : 0 < img.height)
    (hdw : tw ∣ img.width) (hdh : th ∣ img.height) :
    (crop_to_grid_with_offset img tw th 0 0).length =
      (img.width / tw - 1) * (img.height / th - 1) ∧
    (crop_to_grid img tw th).length = (img.width / tw) * (img.height / th) ∧
    (crop_to_grid_with_offset img tw th 0 0).length < (crop_to_grid img tw th).length := by
  have e1 : (crop_to_grid_with_offset img tw th 0 0).length =
      (img.width / tw - 1) * (img.height / th - 1) := by
    rw [crop_to_grid_with_offset_length, fdiv_pred_of_dvd _ _ htw hw hdw,
      fdiv_pred_of_dvd _ _ hth hh hdh]
  have e2 : (crop_to_grid img tw th).length = (img.width / tw) * (img.height / th) := by
    rw [crop_to_grid_length, ceil_div_of_dvd _ _ htw hdw, ceil_div_of_dvd _ _ hth hdh]
  have hq1 : 0 < img.width / tw := Nat.div_pos (Nat.le_of_dvd hw hdw) htw
  have hq2 : 0 < img.height / th := Nat.div_pos (Nat.le_of_dvd hh hdh) hth
  refine ⟨e1, e2, ?_⟩
  rw [e1, e2]
  calc (img.width / tw - 1) * (img.height / th - 1)
      ≤ (img.width / tw - 1) * (img.height / th) := Nat.mul_le_mul (le_refl _) (by omega)
    _ < (img.width / tw) * (img.height / th) := by
        apply Nat.mul_lt_mul_of_lt_of_le (by omega) (le_refl _) hq2

/-- C10 witness: on a 4×4 image with tile size (2, 2), zero-offset tiling
emits 1 tile while plain grid tiling emits 4. -/
theorem C10_zero_offset_loses_row_col_witness :
    (0 < 2 ∧ 0 < 2 ∧ 0 < imgP4.width ∧ 0 < imgP4.height ∧
      2 ∣ imgP4.width ∧ 2 ∣ imgP4.height) ∧
    ((crop_to_grid_with_offset imgP4 2 2 0 0).length =
        (imgP4.width / 2 - 1) * (imgP4.height / 2 - 1) ∧
      (crop_to_grid imgP4 2 2).length = (imgP4.width / 2) * (imgP4.height / 2) ∧
      (crop_to_grid_with_offset imgP4 2 2 0 0).length < (crop_to_grid imgP4 2 2).length) :=
  ⟨by decide,
    C10_zero_offset_loses_row_col imgP4 2 2 (by decide) (by decide) (by decide) (by decide)
      (by decide) (by decide)⟩
